import Mathlib

/-!
Shallow embedding of the `MistralChat` chat-completion adapter
(`phi/model/mistral/mistral.py`) and of the framework data it manipulates.

The remote chat-completion endpoint is modelled as a finite oracle script:
a list of events, one per round, each either a complete assistant response
(`RemoteEvent.round`) or a transport failure raised by the underlying client
(`RemoteEvent.fail`).  `response` and `response_stream` consume one script
event per endpoint call; an exhausted script (`outOfScript`) models the case
where the adapter would have issued a further network call, i.e. potential
non-termination against an adversarial endpoint.

Wall-clock latency is not modelled: the `response_timer.elapsed` value that
the source appends to `metrics["response_times"]` is recorded as `0`; what
matters to the claims is that the list grows.  JSON parsing of tool-call
argument payloads is not modelled either: argument strings are carried as
an uninterpreted payload.  Numeric sampling parameters (floats in the
source) are carried as integers; only their Python truthiness (present and
nonzero) affects the request construction being verified.
-/

namespace Phi

/-- One tool call as it appears inside a remote (non-streaming or delta)
response: `{id, function.name, function.arguments}`. -/
structure RemoteToolCall where
  id : String
  name : String
  arguments : String
deriving Repr, DecidableEq

/-- One complete non-streaming remote response (`response.choices[0].message`
plus `response.usage`). -/
structure RemoteRound where
  role : Option String := none
  content : Option String := none
  toolCalls : List RemoteToolCall := []
  usage : List (String × Nat) := []
deriving Repr, DecidableEq

/-- One event of the oracle script for the non-streaming path: either a
complete response or a transport failure raised by `client.chat.complete`. -/
inductive RemoteEvent where
  | round (r : RemoteRound)
  | fail (e : String)
deriving Repr, DecidableEq

/-- One streamed delta (`response.choices[0].delta`): optional role, optional
incremental text, optional incremental tool-call fragments. -/
structure Delta where
  role : Option String := none
  content : Option String := none
  toolCalls : List RemoteToolCall := []
deriving Repr, DecidableEq

/-- The tool-call entry stored on an assistant `Message`.  The non-streaming
path of the source builds this dict with only a `"type"` and a `"function"`
key (the call id of the originating request is not copied), while the
streaming path stores `model_dump()` of the SDK object, which keeps `"id"`.
Both shapes are represented here by an optional `id` plus the function name
and argument payload. -/
structure ToolCallDict where
  id : Option String
  name : String
  args : String
deriving Repr, DecidableEq

/-- Modelled from the spec: the framework `Message` record (role, optional
text content, optional ordered list of requested tool calls, optional
tool-call identifier for tool-role messages); the metrics bag is not carried
on the message because no claim depends on it.  The `toolCallError` flag
mirrors the `tool_call_error=True` keyword the streaming path sets on
validation-error results.  `phi/model/message.py` is not part of the
sources. -/
structure Message where
  role : String
  content : Option String := none
  toolCalls : List ToolCallDict := []
  toolCallId : Option String := none
  toolCallError : Bool := false
deriving Repr, DecidableEq

/-- Modelled from the spec: the framework `ModelResponse` accumulator; only
its `content` field is used by the adapter.  `phi/model/base.py` is not part
of the sources. -/
structure ModelResponse where
  content : Option String := none
deriving Repr, DecidableEq

/-- Outcome of executing a registered tool: either a returned payload or a
raised exception (captured as text). -/
inductive ToolOutcome where
  | ok (output : String)
  | raises (err : String)

/-- A registered tool: argument validation (returning a validation-error
text on failure) plus the callable itself. -/
structure ToolSpec where
  validate : String → Option String
  run : String → ToolOutcome

/-- Modelled from the spec: the framework `FunctionCall` record produced by
tool-call resolution (target function, argument payload, originating call
identifier, optional validation error).  `phi/tools/function.py` is not part
of the sources. -/
structure FunctionCall where
  spec : ToolSpec
  name : String
  arguments : String
  callId : Option String
  error : Option String

instance : Inhabited ToolSpec :=
  ⟨{ validate := fun _ => none, run := fun _ => ToolOutcome.ok "" }⟩

instance : Inhabited FunctionCall :=
  ⟨{ spec := default, name := "", arguments := "", callId := none,
     error := none }⟩

/-- Modelled from the spec: `get_function_call_for_tool_call`
(`phi/utils/tools.py`, not part of the sources) resolves a tool-call entry
against the registry by function name; an unknown name resolves to `none`,
a known name yields a `FunctionCall` whose `error` field carries any
argument-validation failure. -/
def get_function_call_for_tool_call (toolCall : ToolCallDict)
    (functions : List (String × ToolSpec)) : Option FunctionCall :=
  match functions.lookup toolCall.name with
  | none => none
  | some ts =>
    some { spec := ts, name := toolCall.name, arguments := toolCall.args,
           callId := toolCall.id, error := ts.validate toolCall.args }

/-- Modelled from the spec: `Model.run_function_calls` (`phi/model/base.py`,
not part of the sources) executes the resolved calls sequentially, in order,
converting each outcome — returned payload or captured exception — into one
tool-role `Message` tagged with the call's identifier. -/
def run_function_calls (functionCalls : List FunctionCall)
    (toolRole : String) : List Message :=
  functionCalls.map fun fc =>
    match fc.spec.run fc.arguments with
    | ToolOutcome.ok output =>
      { role := toolRole, toolCallId := fc.callId, content := some output }
    | ToolOutcome.raises err =>
      { role := toolRole, toolCallId := fc.callId,
        content := some ("Error: " ++ err), toolCallError := true }

/-- Modelled from the spec: `Message.get_content_string` returns the
message's text content (`phi/model/message.py` is not part of the
sources). -/
def getContentString (msg : Message) : String :=
  msg.content.getD ""

/-- Modelled from the spec: `FunctionCall.get_call_str`, the human-readable
rendering used by the "Running:" notices. -/
def getCallStr (fc : FunctionCall) : String :=
  fc.name ++ "(" ++ fc.arguments ++ ")"

/-- Per-adapter metrics bag (`self.metrics`): the `"response_times"` list
and the token-usage counters merged in from `response.usage.model_dump()`. -/
structure Metrics where
  responseTimes : List Nat := []
  usage : List (String × Nat) := []
deriving Repr, DecidableEq

/-- A sampling-parameter value appearing in `api_kwargs` (numeric parameters
carried as integers, boolean flags as flags). -/
inductive ParamValue where
  | num (n : Int)
  | flag (b : Bool)
deriving Repr, DecidableEq

/-- Replace the binding of `k` in an association list, or append it —
the semantics of Python `dict.update` for a single key. -/
def setKey {β : Type} (base : List (String × β)) (k : String) (v : β) :
    List (String × β) :=
  match base with
  | [] => [(k, v)]
  | (k', v') :: rest =>
    if k' = k then (k, v) :: rest else (k', v') :: setKey rest k v

/-- Python `dict.update`: fold every binding of `upd` into `base`. -/
def dictUpdate {β : Type} (base upd : List (String × β)) :
    List (String × β) :=
  upd.foldl (fun acc kv => setKey acc kv.1 kv.2) base

/-- The `MistralChat` adapter object.  `runTools`, `showToolCalls` and
`functions` come from the `Model` base class (`phi/model/base.py`, not part
of the sources; defaults modelled from the spec: tools run, call notices
off).  The remaining fields are the declared request/client parameters of
`MistralChat` itself. -/
structure MistralChat where
  id : String := "gpt-4o"
  name : String := "OpenAIChat"
  provider : String := "OpenAI"
  temperature : Option Int := none
  maxTokens : Option Int := none
  topP : Option Int := none
  randomSeed : Option Int := none
  safeMode : Bool := false
  safePrompt : Bool := false
  requestParams : List (String × ParamValue) := []
  apiKey : Option String := none
  endpoint : Option String := none
  maxRetries : Option Int := none
  timeout : Option Int := none
  runTools : Bool := true
  showToolCalls : Bool := false
  functions : List (String × ToolSpec) := []
  metrics : Metrics := {}

/-- Python truthiness of an optional numeric field: present and nonzero. -/
def optTruthy (o : Option Int) : Bool :=
  match o with
  | none => false
  | some n => n != 0

/-- `MistralChat.api_kwargs`: the request parameters assembled from the
truthy declared fields; the block that would forward `self.tools` is
commented out in the source; `request_params` is merged in last. -/
def api_kwargs (m : MistralChat) : List (String × ParamValue) :=
  let ps : List (String × ParamValue) := []
  let ps := if optTruthy m.temperature then
    ps ++ [("temperature", ParamValue.num (m.temperature.getD 0))] else ps
  let ps := if optTruthy m.maxTokens then
    ps ++ [("max_tokens", ParamValue.num (m.maxTokens.getD 0))] else ps
  let ps := if optTruthy m.topP then
    ps ++ [("top_p", ParamValue.num (m.topP.getD 0))] else ps
  let ps := if optTruthy m.randomSeed then
    ps ++ [("random_seed", ParamValue.num (m.randomSeed.getD 0))] else ps
  let ps := if m.safeMode then
    ps ++ [("safe_mode", ParamValue.flag m.safeMode)] else ps
  let ps := if m.safePrompt then
    ps ++ [("safe_prompt", ParamValue.flag m.safePrompt)] else ps
  dictUpdate ps m.requestParams

/-- The request handed to `client.chat.complete` / `client.chat.stream`:
message dicts, model id, an optional tool-schema list (abstracted by the
registered names) and the keyword parameters. -/
structure ChatRequest where
  messages : List Message
  model : String
  tools : Option (List String)
  params : List (String × ParamValue)

/-- `MistralChat.invoke` (request construction only; the network call itself
is modelled by the oracle script): forwards the `tools` argument to the
endpoint. -/
def invoke_request (m : MistralChat) (messages : List Message)
    (tools : Option (List String)) : ChatRequest :=
  { messages := messages, model := m.id, tools := tools,
    params := api_kwargs m }

/-- `MistralChat.invoke_stream` (request construction only): the call passes
no `tools` keyword at all, so the streaming request carries none. -/
def invoke_stream_request (m : MistralChat) (messages : List Message) :
    ChatRequest :=
  { messages := messages, model := m.id, tools := none,
    params := api_kwargs m }

/-- Python `x or d` on an optional string: `d` replaces both `None` and the
empty (falsy) string.  Used for `response_message.role or "assistant"`. -/
def pyOr (o : Option String) (d : String) : String :=
  match o with
  | none => d
  | some s => if s = "" then d else s

/-- The assistant `Message` that `MistralChat.response` builds from a
non-streaming remote response: role defaulted through Python `or`, content
copied, and — when the response carries tool calls — one dict per call
holding only the `"type"` and `"function"` keys.  The originating call id is
not copied into the dict (the source builds
`{"type": "function", "function": Function(name=..., parameters=...)}`),
hence `id := none` here; the argument payload is carried opaquely. -/
def createAssistantMessage (r : RemoteRound) : Message :=
  let am : Message := { role := pyOr r.role "assistant", content := r.content }
  let toolCallDicts := r.toolCalls.map fun tc =>
    ToolCallDict.mk none tc.name tc.arguments
  if toolCallDicts ≠ [] then { am with toolCalls := toolCallDicts } else am

/-- The metrics mutation performed by `MistralChat.response`: append the
round's latency (recorded as `0`, see the module docstring) to
`metrics["response_times"]` and merge `response.usage.model_dump()` into
the bag. -/
def recordResponseMetrics (m : MistralChat) (r : RemoteRound) : MistralChat :=
  { m with metrics :=
      { responseTimes := m.metrics.responseTimes ++ [0],
        usage := dictUpdate m.metrics.usage r.usage } }

/-- The metrics mutation performed by `MistralChat.response_stream`: only the
latency is recorded (the streaming path reads no usage object). -/
def recordStreamMetrics (m : MistralChat) : MistralChat :=
  { m with metrics :=
      { m.metrics with responseTimes := m.metrics.responseTimes ++ [0] } }

/-- The resolution loop of `MistralChat._handle_tool_calls`: walk the
assistant message's tool calls in order; an unresolvable name appends the
synthetic "Could not find function to call." tool message, a validation
error appends the error as a tool message, and a clean resolution is queued
for execution.  Returns the appended messages (in loop order) and the queue
of calls to run. -/
def collectFunctionCalls (functions : List (String × ToolSpec)) :
    List ToolCallDict → List Message × List FunctionCall
  | [] => ([], [])
  | toolCall :: rest =>
    let restResult := collectFunctionCalls functions rest
    match get_function_call_for_tool_call toolCall functions with
    | none =>
      ({ role := "tool", toolCallId := toolCall.id,
         content := some "Could not find function to call." } :: restResult.1,
       restResult.2)
    | some functionCall =>
      match functionCall.error with
      | some err =>
        ({ role := "tool", toolCallId := toolCall.id,
           content := some err } :: restResult.1, restResult.2)
      | none => (restResult.1, functionCall :: restResult.2)

/-- The "Running:" banner `_handle_tool_calls` appends to
`model_response.content` when `show_tool_calls` is set. -/
def runningNotice (functionCallsToRun : List FunctionCall) : String :=
  "\nRunning:"
    ++ String.join (functionCallsToRun.map fun f => "\n - " ++ getCallStr f)
    ++ "\n\n"

/-- `MistralChat._handle_tool_calls`: when the assistant message carries
tool calls and `run_tools` is set, reset the accumulated content to `""`,
resolve every call (appending error tool messages inline), optionally add
the "Running:" banner, execute the queued calls, extend the conversation
with their results, and return the model response; otherwise return `none`
and leave the conversation untouched. -/
def handle_tool_calls (m : MistralChat) (assistantMessage : Message)
    (messages : List Message) (modelResponse : ModelResponse) :
    List Message × Option ModelResponse :=
  if assistantMessage.toolCalls ≠ [] ∧ m.runTools = true then
    let modelResponse := { modelResponse with content := some "" }
    let collected := collectFunctionCalls m.functions assistantMessage.toolCalls
    let messages := messages ++ collected.1
    let functionCallsToRun := collected.2
    let banner := modelResponse.content.getD "" ++ runningNotice functionCallsToRun
    let modelResponse := if m.showToolCalls then
      { modelResponse with content := some banner } else modelResponse
    let functionCallResults := run_function_calls functionCallsToRun "tool"
    let messages := if functionCallResults ≠ [] then
      messages ++ functionCallResults else messages
    (messages, some modelResponse)
  else (messages, none)

/-- The result of one `response` invocation against a finite oracle script:
the final conversation, the adapter with its mutated metrics and the
returned `ModelResponse`; a transport failure propagating out; or
`outOfScript` when the adapter would have issued a further endpoint call
beyond the script (modelling potential unbounded recursion). -/
inductive RespResult where
  | ok (messages : List Message) (m : MistralChat) (modelResponse : ModelResponse)
  | transport (e : String)
  | outOfScript

/-- The content merge `response` performs after a tool round: when the
recursive call produced text, append it to the accumulated content;
failures pass through unchanged. -/
def mergeToolRoundResult (modelResponse : ModelResponse) :
    RespResult → RespResult
  | RespResult.ok messages m after =>
    match after.content with
    | some c =>
      RespResult.ok messages m
        { modelResponse with content := some (modelResponse.content.getD "" ++ c) }
    | none => RespResult.ok messages m modelResponse
  | RespResult.transport e => RespResult.transport e
  | RespResult.outOfScript => RespResult.outOfScript

/-- The tail of `response` when no tool calls were handled: copy the
assistant text, when present, into the fresh model response. -/
def finalizeContent (assistantMessage : Message) : ModelResponse :=
  match assistantMessage.content with
  | some _ => { content := some (getContentString assistantMessage) }
  | none => {}

/-- `MistralChat.response` over the oracle script.  Each endpoint call
consumes one script event: a `fail` event is the `invoke` call raising and
propagates unchanged; a `round` event is parsed into the assistant message,
the metrics are mutated, the assistant message is appended, and tool calls
— when handled — lead to exactly one recursive round on the extended
conversation whose content is merged into this round's response. -/
def response : MistralChat → List RemoteEvent → List Message → RespResult
  | _, [], _ => RespResult.outOfScript
  | _, RemoteEvent.fail e :: _, _ => RespResult.transport e
  | m, RemoteEvent.round r :: rest, messages =>
    let assistantMessage := createAssistantMessage r
    let m := recordResponseMetrics m r
    let messages := messages ++ [assistantMessage]
    match handle_tool_calls m assistantMessage messages {} with
    | (messages2, some modelResponse) =>
      mergeToolRoundResult modelResponse (response m rest messages2)
    | (messages2, none) =>
      RespResult.ok messages2 m (finalizeContent assistantMessage)

/-- The accumulator of the delta loop in `response_stream`: first observed
role, concatenated text, and the `extend`-ed tool-call fragment list
(`none` until the first nonempty fragment batch arrives, mirroring the
`assistant_message_tool_calls is None` initialisation). -/
structure StreamAcc where
  role : Option String
  content : String
  toolCalls : Option (List RemoteToolCall)

/-- One iteration of the delta loop: adopt the first role seen, append any
text, and `extend` the fragment list with any tool-call fragments. -/
def streamStep (acc : StreamAcc) (d : Delta) : StreamAcc :=
  let role := if acc.role = none ∧ d.role ≠ none then d.role else acc.role
  let content := match d.content with
    | some c => acc.content ++ c
    | none => acc.content
  let toolCalls := if d.toolCalls ≠ [] then
    some (acc.toolCalls.getD [] ++ d.toolCalls) else acc.toolCalls
  StreamAcc.mk role content toolCalls

/-- The assistant `Message` assembled at stream exhaustion: role defaulted
through Python `or`, nonempty accumulated text copied, and the accumulated
fragments stored via `model_dump()` — which, unlike the non-streaming path,
keeps each fragment's call id. -/
def assembleAssistant (deltas : List Delta) : Message :=
  let acc := deltas.foldl streamStep (StreamAcc.mk none "" none)
  let msg : Message := { role := pyOr acc.role "assistant" }
  let msg := if acc.content ≠ "" then
    { msg with content := some acc.content } else msg
  match acc.toolCalls with
  | some tcs =>
    { msg with toolCalls := tcs.map fun tc =>
        ToolCallDict.mk (some tc.id) tc.name tc.arguments }
  | none => msg

/-- The resolution loop inlined in `response_stream`; identical to the one
in `_handle_tool_calls` except that a validation-error message is built
with `tool_call_error=True`. -/
def collectFunctionCallsStream (functions : List (String × ToolSpec)) :
    List ToolCallDict → List Message × List FunctionCall
  | [] => ([], [])
  | toolCall :: rest =>
    let restResult := collectFunctionCallsStream functions rest
    match get_function_call_for_tool_call toolCall functions with
    | none =>
      ({ role := "tool", toolCallId := toolCall.id,
         content := some "Could not find function to call." } :: restResult.1,
       restResult.2)
    | some functionCall =>
      match functionCall.error with
      | some err =>
        ({ role := "tool", toolCallId := toolCall.id, toolCallError := true,
           content := some err } :: restResult.1, restResult.2)
      | none => (restResult.1, functionCall :: restResult.2)

/-- One fragment yielded by `response_stream`: either forwarded assistant
text or a human-readable "Running:" notice. -/
inductive Frag where
  | text (s : String)
  | notice (s : String)
deriving Repr, DecidableEq

/-- The "Running:" notices `response_stream` yields before executing tool
calls, in the three source shapes (single call, several calls, none). -/
def streamNotices (functionCallsToRun : List FunctionCall) : List Frag :=
  if functionCallsToRun.length = 1 then
    [Frag.notice ("\n - Running: "
      ++ getCallStr (functionCallsToRun.headI) ++ "\n\n")]
  else if functionCallsToRun.length > 1 then
    Frag.notice "\nRunning:"
      :: (functionCallsToRun.map fun f => Frag.notice ("\n - " ++ getCallStr f))
      ++ [Frag.notice "\n\n"]
  else []

/-- The terminal state of one `response_stream` invocation: the final
conversation and adapter, or `outOfScript` when the generator would have
opened a further stream beyond the script. -/
inductive StreamResult where
  | ok (messages : List Message) (m : MistralChat)
  | outOfScript

/-- `MistralChat.response_stream` over the oracle script (one delta list per
opened stream).  Text deltas are yielded in arrival order, the assistant
message is assembled and appended, and — whenever it carries tool calls,
with no `run_tools` guard on this path — the calls are resolved and
executed and the generator recurses, forwarding the recursive fragments. -/
def response_stream : MistralChat → List (List Delta) → List Message →
    List Frag × StreamResult
  | _, [], _ => ([], StreamResult.outOfScript)
  | m, deltas :: rest, messages =>
    let textFrags := (deltas.filterMap Delta.content).map Frag.text
    let assistantMessage := assembleAssistant deltas
    let m := recordStreamMetrics m
    let messages := messages ++ [assistantMessage]
    if assistantMessage.toolCalls ≠ [] then
      let collected := collectFunctionCallsStream m.functions assistantMessage.toolCalls
      let messages := messages ++ collected.1
      let functionCallsToRun := collected.2
      let notices := if m.showToolCalls then streamNotices functionCallsToRun else []
      let functionCallResults := run_function_calls functionCallsToRun "tool"
      let messages := if functionCallResults ≠ [] then
        messages ++ functionCallResults else messages
      let continued := response_stream m rest messages
      (textFrags ++ notices ++ continued.1, continued.2)
    else
      (textFrags, StreamResult.ok messages m)

/-- Conversation of a completed non-streaming run (empty otherwise). -/
def respMessages : RespResult → List Message
  | RespResult.ok messages _ _ => messages
  | _ => []

/-- Returned content of a completed non-streaming run. -/
def respContent : RespResult → Option String
  | RespResult.ok _ _ modelResponse => modelResponse.content
  | _ => none

/-- Returned content of a non-streaming run as a string (`""` when absent
or when the run did not complete). -/
def contentStr (res : RespResult) : String :=
  (respContent res).getD ""

/-- Whether a non-streaming run completed normally. -/
def respIsOk : RespResult → Bool
  | RespResult.ok _ _ _ => true
  | _ => false

/-- The `"response_times"` metrics list of the adapter returned by a
completed non-streaming run. -/
def respTimes : RespResult → Option (List Nat)
  | RespResult.ok _ m _ => some m.metrics.responseTimes
  | _ => none

/-- Conversation of a completed streaming run (empty otherwise). -/
def streamMessages (res : List Frag × StreamResult) : List Message :=
  match res.2 with
  | StreamResult.ok messages _ => messages
  | StreamResult.outOfScript => []

/-- Concatenation of the text fragments of a stream, notices excluded. -/
def textConcat : List Frag → String
  | [] => ""
  | Frag.text s :: rest => s ++ textConcat rest
  | Frag.notice _ :: rest => textConcat rest

/-- Concatenation of the text carried by a round of deltas. -/
def concatContents : List Delta → String
  | [] => ""
  | d :: rest =>
    match d.content with
    | some c => c ++ concatContents rest
    | none => concatContents rest

/-- The complete response a deterministic endpoint would have returned for a
round it streamed as `deltas`: same first role, same total text (`None` when
empty, matching the stream's own `!= ""` test), same tool calls in order.
This is the bridge between the two oracle views of one endpoint. -/
def roundOfDeltas (deltas : List Delta) : RemoteRound :=
  let acc := deltas.foldl streamStep (StreamAcc.mk none "" none)
  { role := acc.role,
    content := if acc.content = "" then none else some acc.content,
    toolCalls := acc.toolCalls.getD [],
    usage := [] }

/-- The non-streaming oracle script corresponding to a streaming script of
the same deterministic endpoint. -/
def eventsOfStreamScript (sscript : List (List Delta)) : List RemoteEvent :=
  sscript.map fun deltas => RemoteEvent.round (roundOfDeltas deltas)

/-- The "Running:" fragments of one streamed tool round (empty when
`show_tool_calls` is off). -/
def streamRoundNotices (m : MistralChat) (ds : List Delta) : List Frag :=
  if m.showToolCalls then
    streamNotices
      (collectFunctionCallsStream m.functions (assembleAssistant ds).toolCalls).2
  else []

/-- The conversation after one streamed tool round: assistant message,
resolution-error messages, then the execution results (when any). -/
def streamHandledMessages (m : MistralChat) (ds : List Delta)
    (messages : List Message) : List Message :=
  if run_function_calls
      (collectFunctionCallsStream m.functions (assembleAssistant ds).toolCalls).2
      "tool" ≠ [] then
    messages ++ [assembleAssistant ds]
      ++ (collectFunctionCallsStream m.functions (assembleAssistant ds).toolCalls).1
      ++ run_function_calls
          (collectFunctionCallsStream m.functions (assembleAssistant ds).toolCalls).2
          "tool"
  else
    messages ++ [assembleAssistant ds]
      ++ (collectFunctionCallsStream m.functions (assembleAssistant ds).toolCalls).1

/-- Every field of the adapter other than the mutable metrics bag. -/
structure AdapterCore where
  id : String
  name : String
  provider : String
  temperature : Option Int
  maxTokens : Option Int
  topP : Option Int
  randomSeed : Option Int
  safeMode : Bool
  safePrompt : Bool
  requestParams : List (String × ParamValue)
  apiKey : Option String
  endpoint : Option String
  maxRetries : Option Int
  timeout : Option Int
  runTools : Bool
  showToolCalls : Bool
  functions : List (String × ToolSpec)

/-- Projection of the adapter onto its non-metrics fields. -/
def adapterCore (m : MistralChat) : AdapterCore :=
  { id := m.id, name := m.name, provider := m.provider,
    temperature := m.temperature, maxTokens := m.maxTokens, topP := m.topP,
    randomSeed := m.randomSeed, safeMode := m.safeMode,
    safePrompt := m.safePrompt, requestParams := m.requestParams,
    apiKey := m.apiKey, endpoint := m.endpoint, maxRetries := m.maxRetries,
    timeout := m.timeout, runTools := m.runTools,
    showToolCalls := m.showToolCalls, functions := m.functions }

/-! Concrete inputs used by the claim witnesses and counterexamples. -/

/-- A tool that always succeeds with output `"out"`. -/
def okSpec : ToolSpec :=
  { validate := fun _ => none, run := fun _ => ToolOutcome.ok "out" }

/-- A tool whose execution always raises `"boom"`. -/
def raisingSpec : ToolSpec :=
  { validate := fun _ => none, run := fun _ => ToolOutcome.raises "boom" }

/-- The JSON argument payload of the NVDA price scenario. -/
def nvdaArgs : String := "\x7b\"symbol\":\"NVDA\"\x7d"

/-- The `get_price` tool of the NVDA scenario: returns `"118.50"` for the
NVDA payload. -/
def priceSpec : ToolSpec :=
  { validate := fun _ => none,
    run := fun a => if a = nvdaArgs then ToolOutcome.ok "118.50"
      else ToolOutcome.raises "bad args" }

/-- Adapter with the single registered tool `get_price`. -/
def mPrice : MistralChat := { functions := [("get_price", priceSpec)] }

/-- Oracle script of the NVDA scenario: first one tool-call request
`{id: "c1", name: "get_price", args: the NVDA payload}`, then the final
assistant answer with no tool calls. -/
def scriptPrice : List RemoteEvent :=
  [RemoteEvent.round { toolCalls := [RemoteToolCall.mk "c1" "get_price" nvdaArgs] },
   RemoteEvent.round { content := some "NVDA is $118.50" }]

/-- The opening user message of the NVDA scenario. -/
def userPrice : Message := { role := "user", content := some "price of NVDA" }

/-- Adapter with the single registered tool `f` (always succeeds). -/
def mTag : MistralChat := { functions := [("f", okSpec)] }

/-- Non-streaming script whose first response requests the resolvable tool
`f` under call id `"a1"`. -/
def scriptTag : List RemoteEvent :=
  [RemoteEvent.round { toolCalls := [RemoteToolCall.mk "a1" "f" "x"] },
   RemoteEvent.round { content := some "fin" }]

/-- Streaming script carrying the same two rounds as `scriptTag`. -/
def sscriptTag : List (List Delta) :=
  [[{ toolCalls := [RemoteToolCall.mk "a1" "f" "x"] }],
   [{ content := some "fin" }]]

/-- Non-streaming script whose first response requests the unregistered
function `"nope"` under call id `"c9"`. -/
def scriptMissing : List RemoteEvent :=
  [RemoteEvent.round { toolCalls := [RemoteToolCall.mk "c9" "nope" "x"] },
   RemoteEvent.round { content := some "done" }]

/-- Streaming script carrying the same two rounds as `scriptMissing`. -/
def sscriptMissing : List (List Delta) :=
  [[{ toolCalls := [RemoteToolCall.mk "c9" "nope" "x"] }],
   [{ content := some "done" }]]

/-- Streaming script whose first round carries both text (`"hello"`) and a
tool-call request, followed by a final round with text `"done"`. -/
def sscriptMixed : List (List Delta) :=
  [[{ role := some "assistant", content := some "hello",
      toolCalls := [RemoteToolCall.mk "c1" "f" "1"] }],
   [{ content := some "done" }]]

/-- Streaming script whose first round delivers two fragments of the same
tool call (id `"c1"`) in two separate deltas. -/
def sscriptSplit : List (List Delta) :=
  [[{ toolCalls := [RemoteToolCall.mk "c1" "f" "x"] },
    { toolCalls := [RemoteToolCall.mk "c1" "f" "y"] }],
   [{ content := some "end" }]]

/-- Streaming script of one tool-call round where the text of that round is
empty, then a final round with text `"done"` — the shape under which the
amended streaming-equivalence holds. -/
def sscriptSilent : List (List Delta) :=
  [[{ toolCalls := [RemoteToolCall.mk "c1" "f" "1"] }],
   [{ content := some "done" }]]

/-- A resolved call to the always-raising tool, used to exercise the
captured-exception path. -/
def fcBoom : FunctionCall :=
  { spec := raisingSpec, name := "g", arguments := "", callId := some "c2",
    error := none }

/-! Helper lemmas. -/

/-- The tool-call entries of the assistant message built by `response` are
exactly the response's tool calls with the id dropped. -/
theorem createAssistant_toolCalls (r : RemoteRound) :
    (createAssistantMessage r).toolCalls =
      r.toolCalls.map fun tc => ToolCallDict.mk none tc.name tc.arguments := by
  unfold createAssistantMessage
  by_cases h : r.toolCalls = []
  · simp [h]
  · simp [h]

/-- The assistant message carries tool calls iff the response did. -/
theorem createAssistant_toolCalls_ne_nil (r : RemoteRound)
    (h : r.toolCalls ≠ []) : (createAssistantMessage r).toolCalls ≠ [] := by
  rw [createAssistant_toolCalls]
  simpa using h

/-- `_handle_tool_calls` declines (and leaves the conversation unchanged)
when the guard fails. -/
theorem handle_tool_calls_none (m : MistralChat) (am : Message)
    (messages : List Message) (mr : ModelResponse)
    (h : ¬(am.toolCalls ≠ [] ∧ m.runTools = true)) :
    handle_tool_calls m am messages mr = (messages, none) := by
  unfold handle_tool_calls
  rw [if_neg h]

/-- Metrics recording does not touch the control fields. -/
theorem recordResponseMetrics_runTools (m : MistralChat) (r : RemoteRound) :
    (recordResponseMetrics m r).runTools = m.runTools := rfl

/-- A merged tool-round result is `outOfScript` iff the recursive result
was. -/
theorem mergeToolRoundResult_eq_outOfScript (mr : ModelResponse)
    (res : RespResult) :
    mergeToolRoundResult mr res = RespResult.outOfScript ↔
      res = RespResult.outOfScript := by
  cases res with
  | ok messages m after =>
    constructor
    · intro h
      exfalso
      cases hc : after.content with
      | some c => simp [mergeToolRoundResult, hc] at h
      | none => simp [mergeToolRoundResult, hc] at h
    · intro h
      exact RespResult.noConfusion h
  | transport e =>
    simp [mergeToolRoundResult]
  | outOfScript =>
    simp [mergeToolRoundResult]

/-- When the round carries tool calls and `run_tools` is set, `response`
handles them and performs exactly one recursive round on the conversation
extended by tool handling. -/
theorem response_round_with_tools (m : MistralChat) (r : RemoteRound)
    (rest : List RemoteEvent) (messages : List Message)
    (h1 : m.runTools = true) (h2 : r.toolCalls ≠ []) :
    ∃ messages2 modelResponse,
      handle_tool_calls (recordResponseMetrics m r) (createAssistantMessage r)
          (messages ++ [createAssistantMessage r]) {} =
        (messages2, some modelResponse) ∧
      response m (RemoteEvent.round r :: rest) messages =
        mergeToolRoundResult modelResponse
          (response (recordResponseMetrics m r) rest messages2) := by
  have hcond : (createAssistantMessage r).toolCalls ≠ [] ∧
      (recordResponseMetrics m r).runTools = true :=
    ⟨createAssistant_toolCalls_ne_nil r h2, h1⟩
  have hh : ∃ messages2 modelResponse,
      handle_tool_calls (recordResponseMetrics m r) (createAssistantMessage r)
          (messages ++ [createAssistantMessage r]) {} =
        (messages2, some modelResponse) := by
    unfold handle_tool_calls
    rw [if_pos hcond]
    exact ⟨_, _, rfl⟩
  obtain ⟨messages2, modelResponse, hh⟩ := hh
  refine ⟨messages2, modelResponse, hh, ?_⟩
  conv_lhs => rw [response]
  rw [hh]

/-- The accumulated text after the delta loop: the initial text followed by
every text fragment in arrival order. -/
theorem foldl_streamStep_content (ds : List Delta) :
    ∀ acc : StreamAcc,
      (ds.foldl streamStep acc).content = acc.content ++ concatContents ds := by
  induction ds with
  | nil =>
    intro acc
    rw [List.foldl_nil, concatContents, String.append_empty]
  | cons d ds ih =>
    intro acc
    rw [List.foldl_cons, ih]
    cases hdc : d.content with
    | some c =>
      have hstep : (streamStep acc d).content = acc.content ++ c := by
        simp [streamStep, hdc]
      rw [hstep, concatContents, hdc, String.append_assoc]
    | none =>
      have hstep : (streamStep acc d).content = acc.content := by
        simp [streamStep, hdc]
      rw [hstep, concatContents, hdc]

/-- A round of deltas all of whose fragment batches are empty contributes
no tool calls. -/
theorem flatMap_toolCalls_nil (ds : List Delta)
    (h : ds.all (fun d => d.toolCalls.isEmpty) = true) :
    ds.flatMap Delta.toolCalls = [] := by
  induction ds with
  | nil => rfl
  | cons d ds ih =>
    rw [List.all_cons, Bool.and_eq_true] at h
    rw [List.flatMap_cons, List.isEmpty_iff.mp h.1, ih h.2]
    rfl

/-- The accumulated tool-call fragment list after the delta loop: untouched
while every batch was empty, otherwise the `extend`-ed concatenation of all
batches in arrival order. -/
theorem foldl_streamStep_toolCalls (ds : List Delta) :
    ∀ acc : StreamAcc,
      (ds.foldl streamStep acc).toolCalls =
        if ds.all (fun d => d.toolCalls.isEmpty) then acc.toolCalls
        else some (acc.toolCalls.getD [] ++ ds.flatMap Delta.toolCalls) := by
  induction ds with
  | nil =>
    intro acc
    rw [List.foldl_nil, List.all_nil, if_pos rfl]
  | cons d ds ih =>
    intro acc
    rw [List.foldl_cons, ih, List.all_cons, List.flatMap_cons]
    by_cases hd : d.toolCalls = []
    · have hde : d.toolCalls.isEmpty = true := List.isEmpty_iff.mpr hd
      have hstep : (streamStep acc d).toolCalls = acc.toolCalls := by
        simp [streamStep, hd]
      rw [hstep, hde, Bool.true_and, hd, List.nil_append]
    · have hde : d.toolCalls.isEmpty = false := by
        simpa [List.isEmpty_iff] using hd
      have hstep : (streamStep acc d).toolCalls =
          some (acc.toolCalls.getD [] ++ d.toolCalls) := by
        simp [streamStep, hd]
      rw [hstep, hde, Bool.false_and]
      by_cases hall : ds.all (fun d => d.toolCalls.isEmpty) = true
      · rw [if_pos hall, if_neg (by simp), flatMap_toolCalls_nil ds hall,
          List.append_nil]
      · rw [if_neg hall, if_neg (by simp), Option.getD_some, List.append_assoc]

/-- The assembled assistant message's text: the concatenation of all text
fragments, or absent when that concatenation is empty. -/
theorem assembleAssistant_content (ds : List Delta) :
    (assembleAssistant ds).content =
      if concatContents ds = "" then none else some (concatContents ds) := by
  rcases hacc : ds.foldl streamStep (StreamAcc.mk none "" none) with ⟨rr, cc, tt⟩
  have hcc : cc = concatContents ds := by
    have h := foldl_streamStep_content ds (StreamAcc.mk none "" none)
    rw [hacc] at h
    simpa [String.empty_append] using h
  subst hcc
  simp only [assembleAssistant, hacc]
  by_cases h : concatContents ds = ""
  · cases tt <;> simp [h]
  · cases tt <;> simp [h]

/-- The assembled assistant message's tool calls: every fragment batch
concatenated in arrival order (dumped with its call id kept), with no
merging of fragments that share a call identifier. -/
theorem assembleAssistant_toolCalls (ds : List Delta) :
    (assembleAssistant ds).toolCalls =
      (ds.flatMap Delta.toolCalls).map fun tc =>
        ToolCallDict.mk (some tc.id) tc.name tc.arguments := by
  rcases hacc : ds.foldl streamStep (StreamAcc.mk none "" none) with ⟨rr, cc, tt⟩
  have htt := foldl_streamStep_toolCalls ds (StreamAcc.mk none "" none)
  rw [hacc] at htt
  simp only [assembleAssistant, hacc]
  by_cases hall : ds.all (fun d => d.toolCalls.isEmpty) = true
  · rw [if_pos hall] at htt
    have htt' : tt = none := by simpa using htt
    subst htt'
    rw [flatMap_toolCalls_nil ds hall, List.map_nil]
    by_cases h : cc = "" <;> simp [h]
  · rw [if_neg hall] at htt
    have htt' : tt = some (ds.flatMap Delta.toolCalls) := by simpa using htt
    subst htt'
    by_cases h : cc = "" <;> simp [h]

/-- One-step unfolding of `response` on a successful round. -/
theorem response_cons_round (m : MistralChat) (r : RemoteRound)
    (rest : List RemoteEvent) (messages : List Message) :
    response m (RemoteEvent.round r :: rest) messages =
      match handle_tool_calls (recordResponseMetrics m r)
          (createAssistantMessage r) (messages ++ [createAssistantMessage r]) {} with
      | (messages2, some modelResponse) =>
        mergeToolRoundResult modelResponse
          (response (recordResponseMetrics m r) rest messages2)
      | (messages2, none) =>
        RespResult.ok messages2 (recordResponseMetrics m r)
          (finalizeContent (createAssistantMessage r)) := rfl

/-- One-step unfolding of `response_stream` on a round of deltas. -/
theorem response_stream_cons (m : MistralChat) (ds : List Delta)
    (rest : List (List Delta)) (messages : List Message) :
    response_stream m (ds :: rest) messages =
      if (assembleAssistant ds).toolCalls ≠ [] then
        ((ds.filterMap Delta.content).map Frag.text
           ++ streamRoundNotices m ds
           ++ (response_stream (recordStreamMetrics m) rest
                (streamHandledMessages m ds messages)).1,
         (response_stream (recordStreamMetrics m) rest
           (streamHandledMessages m ds messages)).2)
      else
        ((ds.filterMap Delta.content).map Frag.text,
         StreamResult.ok (messages ++ [assembleAssistant ds])
           (recordStreamMetrics m)) := rfl

/-- Metrics recording in `response` leaves every non-metrics field of the
adapter unchanged. -/
theorem adapterCore_recordResponseMetrics (m : MistralChat) (r : RemoteRound) :
    adapterCore (recordResponseMetrics m r) = adapterCore m := rfl

/-- Metrics recording in `response_stream` leaves every non-metrics field
of the adapter unchanged. -/
theorem adapterCore_recordStreamMetrics (m : MistralChat) :
    adapterCore (recordStreamMetrics m) = adapterCore m := rfl

/-- `_handle_tool_calls` only ever appends to the conversation. -/
theorem handle_tool_calls_messages_ext (m : MistralChat) (am : Message)
    (messages : List Message) (mr : ModelResponse) :
    ∃ ext, (handle_tool_calls m am messages mr).1 = messages ++ ext := by
  by_cases hcond : am.toolCalls ≠ [] ∧ m.runTools = true
  · by_cases hr : run_function_calls (collectFunctionCalls m.functions am.toolCalls).2
        "tool" ≠ []
    · refine ⟨(collectFunctionCalls m.functions am.toolCalls).1
        ++ run_function_calls (collectFunctionCalls m.functions am.toolCalls).2 "tool", ?_⟩
      unfold handle_tool_calls
      rw [if_pos hcond]
      simp only [if_pos hr]
      rw [List.append_assoc]
    · refine ⟨(collectFunctionCalls m.functions am.toolCalls).1, ?_⟩
      unfold handle_tool_calls
      rw [if_pos hcond]
      simp only [if_neg hr]
  · refine ⟨[], ?_⟩
    rw [handle_tool_calls_none m am messages mr hcond, List.append_nil]

/-- Inversion of the post-round content merge: a completed merged result
comes from a completed recursive result with the same conversation and
adapter. -/
theorem mergeToolRoundResult_ok_inv (mr0 : ModelResponse) (res : RespResult)
    (messages : List Message) (m : MistralChat) (mr : ModelResponse)
    (h : mergeToolRoundResult mr0 res = RespResult.ok messages m mr) :
    ∃ after, res = RespResult.ok messages m after := by
  cases res with
  | ok messages' m' after =>
    refine ⟨after, ?_⟩
    cases hc : after.content with
    | some c =>
      simp only [mergeToolRoundResult, hc] at h
      injection h with h1 h2 h3
      rw [h1, h2]
    | none =>
      simp only [mergeToolRoundResult, hc] at h
      injection h with h1 h2 h3
      rw [h1, h2]
  | transport e => exact RespResult.noConfusion h
  | outOfScript => exact RespResult.noConfusion h

/-- Text concatenation distributes over appending fragment streams. -/
theorem textConcat_append (a b : List Frag) :
    textConcat (a ++ b) = textConcat a ++ textConcat b := by
  induction a with
  | nil =>
    rw [List.nil_append]
    exact (String.empty_append _).symm
  | cons f a ih =>
    cases f with
    | text s =>
      show s ++ textConcat (a ++ b) = (s ++ textConcat a) ++ textConcat b
      rw [ih, String.append_assoc]
    | notice s =>
      show textConcat (a ++ b) = textConcat a ++ textConcat b
      exact ih

/-- The text fragments yielded while consuming one round of deltas
concatenate to that round's total text. -/
theorem textConcat_textFrags (ds : List Delta) :
    textConcat ((ds.filterMap Delta.content).map Frag.text) =
      concatContents ds := by
  induction ds with
  | nil => rfl
  | cons d ds ih =>
    cases hdc : d.content with
    | some c =>
      simp only [List.filterMap_cons, hdc, List.map_cons, textConcat,
        concatContents]
      rw [ih]
    | none =>
      simp only [List.filterMap_cons, hdc, concatContents]
      exact ih

/-- A list of rendered notices carries no text fragment. -/
theorem textConcat_map_notice (xs : List FunctionCall)
    (g : FunctionCall → String) :
    textConcat (xs.map fun f => Frag.notice (g f)) = "" := by
  induction xs with
  | nil => rfl
  | cons x xs ih =>
    simp only [List.map_cons, textConcat]
    exact ih

/-- The "Running:" notices contribute no text. -/
theorem textConcat_streamNotices (fcs : List FunctionCall) :
    textConcat (streamNotices fcs) = "" := by
  unfold streamNotices
  split_ifs with hh1 hh2
  · rfl
  · show textConcat ((fcs.map fun f => Frag.notice ("\n - " ++ getCallStr f))
      ++ [Frag.notice "\n\n"]) = ""
    rw [textConcat_append, textConcat_map_notice]
    rfl
  · rfl

/-- A streamed tool round's notices contribute no text either way. -/
theorem textConcat_streamRoundNotices (m : MistralChat) (ds : List Delta) :
    textConcat (streamRoundNotices m ds) = "" := by
  unfold streamRoundNotices
  split_ifs
  · exact textConcat_streamNotices _
  · rfl

/-- The tool calls of the deterministic-endpoint round behind a delta
round. -/
theorem roundOfDeltas_toolCalls (ds : List Delta) :
    (roundOfDeltas ds).toolCalls = ds.flatMap Delta.toolCalls := by
  simp only [roundOfDeltas]
  rw [foldl_streamStep_toolCalls]
  by_cases hall : ds.all (fun d => d.toolCalls.isEmpty) = true
  · rw [if_pos hall, flatMap_toolCalls_nil ds hall]
    rfl
  · rw [if_neg hall]
    simp

/-- The text of the deterministic-endpoint round behind a delta round. -/
theorem roundOfDeltas_content (ds : List Delta) :
    (roundOfDeltas ds).content =
      if concatContents ds = "" then none else some (concatContents ds) := by
  simp only [roundOfDeltas]
  rw [foldl_streamStep_content, String.empty_append]

/-- Merging an empty accumulated content forwards the recursive round's
content unchanged. -/
theorem contentStr_merge_empty (res : RespResult) :
    contentStr (mergeToolRoundResult { content := some "" } res) =
      contentStr res := by
  cases res with
  | ok messages m after =>
    cases hc : after.content with
    | some c =>
      simp only [mergeToolRoundResult, hc, contentStr, respContent]
      simp [String.empty_append]
    | none =>
      simp only [mergeToolRoundResult, hc, contentStr, respContent]
      rfl
  | transport e => rfl
  | outOfScript => rfl

/-- With `show_tool_calls` off, a handled tool round always hands back the
reset (empty) accumulated content. -/
theorem handle_some_showOff (m : MistralChat) (am : Message)
    (msgs : List Message) (h1 : am.toolCalls ≠ []) (h2 : m.runTools = true)
    (h3 : m.showToolCalls = false) :
    ∃ msgsH, handle_tool_calls m am msgs {} =
      (msgsH, some ({ content := some "" } : ModelResponse)) := by
  unfold handle_tool_calls
  rw [if_pos ⟨h1, h2⟩, h3]
  simp only [Bool.false_eq_true, if_false]
  exact ⟨_, rfl⟩

/-- A round whose response carries no tool calls appends exactly the
assistant message and returns its text. -/
theorem response_round_no_toolCalls (m : MistralChat) (r : RemoteRound)
    (rest : List RemoteEvent) (messages : List Message)
    (h : r.toolCalls = []) :
    response m (RemoteEvent.round r :: rest) messages =
      RespResult.ok (messages ++ [createAssistantMessage r])
        (recordResponseMetrics m r) { content := r.content } := by
  have ham : (createAssistantMessage r).toolCalls = [] := by
    rw [createAssistant_toolCalls, h]
    rfl
  have hh := handle_tool_calls_none (recordResponseMetrics m r)
    (createAssistantMessage r) (messages ++ [createAssistantMessage r]) {}
    (by simp [ham])
  conv_lhs => rw [response]
  rw [hh]
  have hfin : finalizeContent (createAssistantMessage r) =
      { content := r.content } := by
    have hcontent : (createAssistantMessage r).content = r.content := by
      unfold createAssistantMessage
      by_cases h0 : r.toolCalls = [] <;> simp [h0]
    cases hc : r.content with
    | some c =>
      unfold finalizeContent getContentString
      rw [hcontent, hc]
      rfl
    | none =>
      unfold finalizeContent
      rw [hcontent, hc]
  rw [hfin]

/-- Core equivalence: against one deterministic endpoint (one script, seen
as deltas by the streaming run and as assembled rounds by the non-streaming
run), the streamed text equals the non-streaming content, provided the
non-streaming adapter runs tools with notices off and every round that
requests tool calls carries no text.  The two runs' adapters and
conversations are fully generalised: fragments and content never depend on
them. -/
theorem stream_response_content_agree (sscript : List (List Delta)) :
    ∀ (m1 m2 : MistralChat) (msgs1 msgs2 : List Message),
      m2.runTools = true → m2.showToolCalls = false →
      (∀ ds ∈ sscript, ds.flatMap Delta.toolCalls ≠ [] → concatContents ds = "") →
      textConcat (response_stream m1 sscript msgs1).1 =
        contentStr (response m2 (eventsOfStreamScript sscript) msgs2) := by
  induction sscript with
  | nil =>
    intro m1 m2 msgs1 msgs2 h1 h2 h3
    rfl
  | cons ds rest ih =>
    intro m1 m2 msgs1 msgs2 h1 h2 h3
    have hev : eventsOfStreamScript (ds :: rest) =
        RemoteEvent.round (roundOfDeltas ds) :: eventsOfStreamScript rest := rfl
    rw [response_stream_cons, hev]
    by_cases htc : ds.flatMap Delta.toolCalls = []
    · have hamtc : (assembleAssistant ds).toolCalls = [] := by
        rw [assembleAssistant_toolCalls, htc]
        rfl
      have hrtc : (roundOfDeltas ds).toolCalls = [] := by
        rw [roundOfDeltas_toolCalls, htc]
      rw [if_neg (not_not_intro hamtc),
        response_round_no_toolCalls m2 (roundOfDeltas ds)
          (eventsOfStreamScript rest) msgs2 hrtc]
      show textConcat ((ds.filterMap Delta.content).map Frag.text) =
        (roundOfDeltas ds).content.getD ""
      rw [textConcat_textFrags, roundOfDeltas_content]
      by_cases hc : concatContents ds = ""
      · rw [if_pos hc, hc]
        rfl
      · rw [if_neg hc]
        rfl
    · have hcc : concatContents ds = "" := h3 ds (List.mem_cons_self ds rest) htc
      have hamtc : (assembleAssistant ds).toolCalls ≠ [] := by
        rw [assembleAssistant_toolCalls]
        simpa using htc
      have hrtc : (roundOfDeltas ds).toolCalls ≠ [] := by
        rw [roundOfDeltas_toolCalls]
        exact htc
      rw [if_pos hamtc]
      obtain ⟨msgsH, hhandle⟩ := handle_some_showOff
        (recordResponseMetrics m2 (roundOfDeltas ds))
        (createAssistantMessage (roundOfDeltas ds))
        (msgs2 ++ [createAssistantMessage (roundOfDeltas ds)])
        (createAssistant_toolCalls_ne_nil (roundOfDeltas ds) hrtc) h1 h2
      have hrhs : response m2
          (RemoteEvent.round (roundOfDeltas ds) :: eventsOfStreamScript rest) msgs2 =
          mergeToolRoundResult { content := some "" }
            (response (recordResponseMetrics m2 (roundOfDeltas ds))
              (eventsOfStreamScript rest) msgsH) := by
        rw [response_cons_round, hhandle]
      rw [hrhs, contentStr_merge_empty, textConcat_append, textConcat_append,
        textConcat_textFrags, hcc, textConcat_streamRoundNotices,
        String.empty_append, String.empty_append]
      exact ih (recordStreamMetrics m1) (recordResponseMetrics m2 (roundOfDeltas ds))
        (streamHandledMessages m1 ds msgs1) msgsH h1 h2
        (fun ds' hmem => h3 ds' (List.mem_cons_of_mem ds hmem))

/-- C3.  When the endpoint's first response carries no tool-call requests,
`response` appends exactly one message — the assistant message — to the
conversation and returns that message's text content unchanged (besides the
metrics mutation, which C9 examines separately). -/
theorem c3_no_tool_calls_single_append (m : MistralChat) (r : RemoteRound)
    (rest : List RemoteEvent) (messages : List Message)
    (h : r.toolCalls = []) :
    response m (RemoteEvent.round r :: rest) messages =
      RespResult.ok (messages ++ [createAssistantMessage r])
        (recordResponseMetrics m r) { content := r.content } :=
  response_round_no_toolCalls m r rest messages h

/-- C3, witness: the "2+2?" scenario — one round with content `"4"` and no
tool calls appends exactly the assistant message and returns `"4"`. -/
theorem c3_no_tool_calls_single_append_witness :
    ({ content := some "4" } : RemoteRound).toolCalls = [] ∧
    response ({} : MistralChat) [RemoteEvent.round { content := some "4" }]
        [{ role := "user", content := some "2+2?" }] =
      RespResult.ok
        [{ role := "user", content := some "2+2?" },
         { role := "assistant", content := some "4" }]
        (recordResponseMetrics {} { content := some "4" })
        { content := some "4" } :=
  ⟨rfl, c3_no_tool_calls_single_append {} { content := some "4" } []
    [{ role := "user", content := some "2+2?" }] rfl⟩

/-- C5.  First, `response` cannot run off the end of the script — i.e. it
terminates without needing a further endpoint call — whenever some scripted
response carries no tool-call requests; second, a round whose response does
carry tool-call requests (with `run_tools` set, and regardless of whether
any of them resolved) performs exactly one further recursive round on the
conversation extended by tool handling. -/
theorem c5_termination_and_single_recursion :
    (∀ (m : MistralChat) (script : List RemoteEvent) (messages : List Message),
      (∃ r, RemoteEvent.round r ∈ script ∧ r.toolCalls = []) →
      response m script messages ≠ RespResult.outOfScript)
    ∧ (∀ (m : MistralChat) (r : RemoteRound) (rest : List RemoteEvent)
        (messages : List Message),
      m.runTools = true → r.toolCalls ≠ [] →
      ∃ messages2 modelResponse,
        handle_tool_calls (recordResponseMetrics m r) (createAssistantMessage r)
            (messages ++ [createAssistantMessage r]) {} =
          (messages2, some modelResponse) ∧
        response m (RemoteEvent.round r :: rest) messages =
          mergeToolRoundResult modelResponse
            (response (recordResponseMetrics m r) rest messages2)) := by
  constructor
  · intro m script
    induction script generalizing m with
    | nil =>
      intro messages h
      obtain ⟨r, hr, _⟩ := h
      simp at hr
    | cons ev rest ih =>
      intro messages h
      cases ev with
      | fail e =>
        intro hc
        rw [response] at hc
        exact RespResult.noConfusion hc
      | round r =>
        by_cases hnil : r.toolCalls = []
        · rw [response_round_no_toolCalls m r rest messages hnil]
          intro hc
          exact RespResult.noConfusion hc
        · by_cases hrt : m.runTools = true
          · obtain ⟨messages2, modelResponse, _, heq⟩ :=
              response_round_with_tools m r rest messages hrt hnil
            rw [heq]
            intro hc
            rw [mergeToolRoundResult_eq_outOfScript] at hc
            have hmem : ∃ r', RemoteEvent.round r' ∈ rest ∧ r'.toolCalls = [] := by
              obtain ⟨r', hr', hr'nil⟩ := h
              rcases List.mem_cons.mp hr' with hhead | htail
              · exact absurd (by injection hhead with h'; rw [h'] at hr'nil; exact hr'nil) hnil
              · exact ⟨r', htail, hr'nil⟩
            exact ih (recordResponseMetrics m r) messages2 hmem hc
          · have hh := handle_tool_calls_none (recordResponseMetrics m r)
              (createAssistantMessage r) (messages ++ [createAssistantMessage r]) {}
              (by
                intro hcond
                exact hrt hcond.2)
            conv_lhs => rw [response]
            rw [hh]
            intro hc
            exact RespResult.noConfusion hc
  · intro m r rest messages h1 h2
    exact response_round_with_tools m r rest messages h1 h2

/-- C5, witness: on the NVDA script (whose second round has no tool calls)
the run completes, and its first round — one tool-call request with
`run_tools` set — reduces to exactly one recursive round. -/
theorem c5_termination_and_single_recursion_witness :
    (∃ r, RemoteEvent.round r ∈ scriptPrice ∧ r.toolCalls = []) ∧
    response mPrice scriptPrice [userPrice] ≠ RespResult.outOfScript ∧
    mPrice.runTools = true ∧
    ({ toolCalls := [RemoteToolCall.mk "c1" "get_price" nvdaArgs] } :
        RemoteRound).toolCalls ≠ [] ∧
    ∃ messages2 modelResponse,
      handle_tool_calls
          (recordResponseMetrics mPrice
            { toolCalls := [RemoteToolCall.mk "c1" "get_price" nvdaArgs] })
          (createAssistantMessage
            { toolCalls := [RemoteToolCall.mk "c1" "get_price" nvdaArgs] })
          ([userPrice] ++ [createAssistantMessage
            { toolCalls := [RemoteToolCall.mk "c1" "get_price" nvdaArgs] }]) {} =
        (messages2, some modelResponse) ∧
      response mPrice scriptPrice [userPrice] =
        mergeToolRoundResult modelResponse
          (response
            (recordResponseMetrics mPrice
              { toolCalls := [RemoteToolCall.mk "c1" "get_price" nvdaArgs] })
            [RemoteEvent.round { content := some "NVDA is $118.50" }]
            messages2) :=
  ⟨⟨{ content := some "NVDA is $118.50" }, by decide, rfl⟩,
   c5_termination_and_single_recursion.1 mPrice scriptPrice [userPrice]
     ⟨{ content := some "NVDA is $118.50" }, by decide, rfl⟩,
   rfl, by decide,
   c5_termination_and_single_recursion.2 mPrice
     { toolCalls := [RemoteToolCall.mk "c1" "get_price" nvdaArgs] }
     [RemoteEvent.round { content := some "NVDA is $118.50" }] [userPrice]
     rfl (by decide)⟩

/-- C7.  A transport failure raised by the endpoint call propagates
unchanged out of `response`, with no retry (the result does not depend on
the rest of the script); an exception raised inside an executed tool
function is captured per-call into a tool-role error message by
`run_function_calls`; and a tool round — whatever its per-call outcomes —
does not abort: `response` still performs its one recursive round. -/
theorem c7_failure_semantics :
    (∀ (m : MistralChat) (e : String) (rest : List RemoteEvent)
        (messages : List Message),
      response m (RemoteEvent.fail e :: rest) messages =
        RespResult.transport e)
    ∧ (∀ (fc : FunctionCall) (toolRole err : String),
      fc.spec.run fc.arguments = ToolOutcome.raises err →
      run_function_calls [fc] toolRole =
        [{ role := toolRole, toolCallId := fc.callId,
           content := some ("Error: " ++ err), toolCallError := true }])
    ∧ (∀ (m : MistralChat) (r : RemoteRound) (rest : List RemoteEvent)
        (messages : List Message),
      m.runTools = true → r.toolCalls ≠ [] →
      ∃ messages2 modelResponse,
        handle_tool_calls (recordResponseMetrics m r) (createAssistantMessage r)
            (messages ++ [createAssistantMessage r]) {} =
          (messages2, some modelResponse) ∧
        response m (RemoteEvent.round r :: rest) messages =
          mergeToolRoundResult modelResponse
            (response (recordResponseMetrics m r) rest messages2)) := by
  refine ⟨fun m e rest messages => rfl, ?_, ?_⟩
  · intro fc toolRole err h
    unfold run_function_calls
    rw [List.map_cons, List.map_nil, h]
  · intro m r rest messages h1 h2
    exact response_round_with_tools m r rest messages h1 h2

/-- C7, witness: a transport failure `"auth"` propagates as such; the
always-raising tool call `fcBoom` becomes a tool-role error message; and a
round requesting the raising tool still recurses. -/
theorem c7_failure_semantics_witness :
    response ({} : MistralChat) [RemoteEvent.fail "auth"] [] =
      RespResult.transport "auth" ∧
    fcBoom.spec.run fcBoom.arguments = ToolOutcome.raises "boom" ∧
    run_function_calls [fcBoom] "tool" =
      [{ role := "tool", toolCallId := some "c2",
         content := some ("Error: " ++ "boom"), toolCallError := true }] ∧
    ∃ messages2 modelResponse,
      handle_tool_calls
          (recordResponseMetrics { functions := [("g", raisingSpec)] }
            { toolCalls := [RemoteToolCall.mk "c2" "g" ""] })
          (createAssistantMessage { toolCalls := [RemoteToolCall.mk "c2" "g" ""] })
          ([] ++ [createAssistantMessage
            { toolCalls := [RemoteToolCall.mk "c2" "g" ""] }]) {} =
        (messages2, some modelResponse) ∧
      response { functions := [("g", raisingSpec)] }
          (RemoteEvent.round { toolCalls := [RemoteToolCall.mk "c2" "g" ""] } :: []) [] =
        mergeToolRoundResult modelResponse
          (response
            (recordResponseMetrics { functions := [("g", raisingSpec)] }
              { toolCalls := [RemoteToolCall.mk "c2" "g" ""] })
            [] messages2) :=
  ⟨c7_failure_semantics.1 {} "auth" [] [], rfl,
   c7_failure_semantics.2.1 fcBoom "tool" "boom" rfl,
   c7_failure_semantics.2.2 { functions := [("g", raisingSpec)] }
     { toolCalls := [RemoteToolCall.mk "c2" "g" ""] } [] [] rfl (by decide)⟩

/-- C10.  The streaming request carries no tool schema: `invoke_stream`
builds its request without a `tools` argument for every message list (and
every registry), while `invoke` forwards the given tools; moreover the
assembled keyword parameters never introduce a `"tools"` key of their own
(the block that would forward `self.tools` is commented out in the
source). -/
theorem c10_stream_request_never_carries_tools :
    ∀ (m : MistralChat) (messages : List Message) (tools : Option (List String)),
      (invoke_stream_request m messages).tools = none ∧
      (invoke_request m messages tools).tools = tools ∧
      "tools" ∉ (api_kwargs { m with requestParams := [] }).map Prod.fst := by
  intro m messages tools
  refine ⟨rfl, rfl, ?_⟩
  unfold api_kwargs dictUpdate
  simp only [List.foldl_nil]
  split_ifs <;> simp

/-- C10, witness: at the NVDA adapter the streaming request carries no
tools while the non-streaming request forwards the given schema list. -/
theorem c10_stream_request_never_carries_tools_witness :
    (invoke_stream_request mPrice [userPrice]).tools = none ∧
    (invoke_request mPrice [userPrice] (some ["get_price"])).tools =
      some ["get_price"] ∧
    "tools" ∉ (api_kwargs { mPrice with requestParams := [] }).map Prod.fst :=
  c10_stream_request_never_carries_tools mPrice [userPrice] (some ["get_price"])

/-- C1.  The code, evaluated at the failing input: the endpoint requests the
resolvable tool `f` under call id `"a1"` and then finishes.  On the
non-streaming path every appended tool-role message is tagged `none` — not
with the originating identifier `"a1"` — because `response` builds the
assistant `tool_calls` dicts without an `"id"` key; the streaming run of the
same two rounds, which stores `model_dump()` of each fragment, tags the same
tool result with `"a1"`.  (Exactly one tool message is appended for the one
resolved call, as the claim states; the tagging half fails.) -/
theorem c1_tool_message_tag_dropped :
    respMessages (response mTag scriptTag []) =
      [{ role := "assistant",
         toolCalls := [ToolCallDict.mk none "f" "x"] },
       { role := "tool", toolCallId := none, content := some "out" },
       { role := "assistant", content := some "fin" }] ∧
    (respMessages (response mTag scriptTag [])).map Message.toolCallId =
      [none, none, none] ∧
    (streamMessages (response_stream mTag sscriptTag [])).map Message.toolCallId =
      [none, some "a1", none] := by
  decide

/-- C6.  The code, evaluated at the failing input: the endpoint requests the
unregistered function `"nope"` under call id `"c9"`.  No function runs, the
run completes normally (no exception escapes), and the appended tool
message's content is exactly "Could not find function to call." — but on
the non-streaming path it is tagged `none`, not `"c9"`, because the
assistant `tool_calls` dict is built without an `"id"` key; the streaming
run of the same rounds tags it `"c9"` as the claim states. -/
theorem c6_unresolvable_tool_eval :
    respIsOk (response ({} : MistralChat) scriptMissing []) = true ∧
    respMessages (response ({} : MistralChat) scriptMissing []) =
      [{ role := "assistant",
         toolCalls := [ToolCallDict.mk none "nope" "x"] },
       { role := "tool", toolCallId := none,
         content := some "Could not find function to call." },
       { role := "assistant", content := some "done" }] ∧
    streamMessages (response_stream ({} : MistralChat) sscriptMissing []) =
      [{ role := "assistant",
         toolCalls := [ToolCallDict.mk (some "c9") "nope" "x"] },
       { role := "tool", toolCallId := some "c9",
         content := some "Could not find function to call." },
       { role := "assistant", content := some "done" }] := by
  decide

/-- C8.  The NVDA scenario: conversation `[user: "price of NVDA"]`, registry
`{get_price}`, first round one tool-call request `{id: "c1",
name: "get_price", args: the NVDA JSON payload}`, `get_price` returning
`"118.50"`, second round the final assistant text.  `response` returns
"NVDA is $118.50" and the conversation grows by exactly three messages:
assistant-with-call, tool-result, final-assistant. -/
theorem c8_concrete_scenario :
    respContent (response mPrice scriptPrice [userPrice]) =
      some "NVDA is $118.50" ∧
    respMessages (response mPrice scriptPrice [userPrice]) =
      [userPrice,
       { role := "assistant",
         toolCalls := [ToolCallDict.mk none "get_price" nvdaArgs] },
       { role := "tool", toolCallId := none, content := some "118.50" },
       { role := "assistant", content := some "NVDA is $118.50" }] := by
  decide

/-- C2, counterexample.  A first round carrying both text `"hello"` and a
tool-call request, then a final round `"done"`: the streamed text
fragments concatenate to `"hellodone"`, but the non-streaming run of the
same deterministic endpoint returns only `"done"`, because
`_handle_tool_calls` resets the accumulated content to `""`, discarding the
first round's assistant text that the streaming path has already yielded. -/
theorem c2_stream_vs_response_counterexample :
    textConcat (response_stream mTag sscriptMixed []).1 = "hellodone" ∧
    contentStr (response mTag (eventsOfStreamScript sscriptMixed) []) = "done" ∧
    textConcat (response_stream mTag sscriptMixed []).1 ≠
      contentStr (response mTag (eventsOfStreamScript sscriptMixed) []) := by
  decide

/-- C2, amended.  Equality of the streamed text and the non-streaming
content does hold for a deterministic endpoint whenever tools run with
`show_tool_calls` off and every round that requests tool calls carries no
text — the counterexample shows it is exactly the text of tool-call-bearing
rounds (yielded by the stream, discarded by `_handle_tool_calls`) that
breaks the claim as stated. -/
theorem c2_stream_matches_response_on_silent_tool_rounds
    (m : MistralChat) (sscript : List (List Delta)) (messages : List Message)
    (h1 : m.runTools = true) (h2 : m.showToolCalls = false)
    (h3 : ∀ ds ∈ sscript, ds.flatMap Delta.toolCalls ≠ [] →
      concatContents ds = "") :
    textConcat (response_stream m sscript messages).1 =
      contentStr (response m (eventsOfStreamScript sscript) messages) :=
  stream_response_content_agree sscript m m messages messages h1 h2 h3

/-- C2, amended, witness: on a script whose tool-call round is silent, the
streamed text and the non-streaming content are both `"done"`. -/
theorem c2_stream_matches_response_witness :
    mTag.runTools = true ∧ mTag.showToolCalls = false ∧
    (∀ ds ∈ sscriptSilent, ds.flatMap Delta.toolCalls ≠ [] →
      concatContents ds = "") ∧
    textConcat (response_stream mTag sscriptSilent []).1 =
      contentStr (response mTag (eventsOfStreamScript sscriptSilent) []) :=
  ⟨rfl, rfl, by decide,
   c2_stream_matches_response_on_silent_tool_rounds mTag sscriptSilent []
     rfl rfl (by decide)⟩

/-- C4, counterexample.  Two fragments of the same tool call (both under
call id `"c1"`) arriving in two separate deltas are `extend`-ed into two
separate entries of the assembled assistant message — they are not
concatenated by call identifier into the single merged request the claim
describes. -/
theorem c4_fragments_not_merged_counterexample :
    (streamMessages (response_stream ({} : MistralChat) sscriptSplit [])).head?.map
        Message.toolCalls =
      some [ToolCallDict.mk (some "c1") "f" "x",
            ToolCallDict.mk (some "c1") "f" "y"] ∧
    ([ToolCallDict.mk (some "c1") "f" "x", ToolCallDict.mk (some "c1") "f" "y"] :
        List ToolCallDict) ≠ [ToolCallDict.mk (some "c1") "f" "xy"] := by
  decide

/-- C4, amended.  What the stream loop actually assembles: text fragments
are accumulated into the one assistant message (absent when their
concatenation is empty), and tool-call fragments are appended into one list
in arrival order — each fragment kept as its own entry with its call id, so
fragments of the same tool call arriving in several deltas remain separate
entries rather than being concatenated by call identifier. -/
theorem c4_fragments_appended_in_order (ds : List Delta) :
    (assembleAssistant ds).content =
      (if concatContents ds = "" then none else some (concatContents ds)) ∧
    (assembleAssistant ds).toolCalls =
      (ds.flatMap Delta.toolCalls).map (fun tc =>
        ToolCallDict.mk (some tc.id) tc.name tc.arguments) :=
  ⟨assembleAssistant_content ds, assembleAssistant_toolCalls ds⟩

/-- C9, amended.  Across one completed `response` or `response_stream`
invocation the adapter's fields other than the mutable metrics bag are
unchanged, and the conversation is only ever appended to. -/
theorem c9_adapter_frame :
    (∀ (m : MistralChat) (script : List RemoteEvent) (messages msgs2 : List Message)
        (m2 : MistralChat) (mr : ModelResponse),
      response m script messages = RespResult.ok msgs2 m2 mr →
      adapterCore m2 = adapterCore m ∧ ∃ ext, msgs2 = messages ++ ext)
    ∧ (∀ (m : MistralChat) (sscript : List (List Delta))
        (messages : List Message) (frags : List Frag) (msgs2 : List Message)
        (m2 : MistralChat),
      response_stream m sscript messages = (frags, StreamResult.ok msgs2 m2) →
      adapterCore m2 = adapterCore m ∧ ∃ ext, msgs2 = messages ++ ext) := by
  constructor
  · intro m script
    induction script generalizing m with
    | nil =>
      intro messages msgs2 m2 mr h
      exact RespResult.noConfusion h
    | cons ev rest ih =>
      intro messages msgs2 m2 mr h
      cases ev with
      | fail e => exact RespResult.noConfusion h
      | round r =>
        rw [response_cons_round] at h
        obtain ⟨ext0, hext0⟩ := handle_tool_calls_messages_ext
          (recordResponseMetrics m r) (createAssistantMessage r)
          (messages ++ [createAssistantMessage r]) {}
        rcases hht : handle_tool_calls (recordResponseMetrics m r)
            (createAssistantMessage r) (messages ++ [createAssistantMessage r]) {}
          with ⟨msgsH, omr⟩
        rw [hht] at h hext0
        have hext0' : msgsH = messages ++ ([createAssistantMessage r] ++ ext0) := by
          have : msgsH = (messages ++ [createAssistantMessage r]) ++ ext0 := hext0
          rw [this, List.append_assoc]
        cases omr with
        | none =>
          injection h with h1 h2 h3
          constructor
          · rw [← h2]
            exact adapterCore_recordResponseMetrics m r
          · exact ⟨[createAssistantMessage r] ++ ext0, by rw [← h1, hext0']⟩
        | some mrH =>
          obtain ⟨after, hres⟩ := mergeToolRoundResult_ok_inv mrH _ msgs2 m2 mr h
          obtain ⟨hcore, ext1, hext1⟩ :=
            ih (recordResponseMetrics m r) msgsH msgs2 m2 after hres
          constructor
          · rw [hcore]
            exact adapterCore_recordResponseMetrics m r
          · refine ⟨[createAssistantMessage r] ++ ext0 ++ ext1, ?_⟩
            rw [hext1, hext0', List.append_assoc, List.append_assoc]
  · intro m sscript
    induction sscript generalizing m with
    | nil =>
      intro messages frags msgs2 m2 h
      injection h with h1 h2
      exact StreamResult.noConfusion h2
    | cons ds rest ih =>
      intro messages frags msgs2 m2 h
      rw [response_stream_cons] at h
      by_cases htc : (assembleAssistant ds).toolCalls = []
      · rw [if_neg (not_not_intro htc)] at h
        injection h with h1 h2
        injection h2 with h21 h22
        constructor
        · rw [← h22]
          exact adapterCore_recordStreamMetrics m
        · exact ⟨[assembleAssistant ds], h21.symm⟩
      · rw [if_pos htc] at h
        injection h with h1 h2
        rcases hrec : response_stream (recordStreamMetrics m) rest
            (streamHandledMessages m ds messages) with ⟨frags', res2⟩
        rw [hrec] at h2
        have h2' : res2 = StreamResult.ok msgs2 m2 := h2
        obtain ⟨hcore, ext1, hext1⟩ := ih (recordStreamMetrics m)
          (streamHandledMessages m ds messages) frags' msgs2 m2
          (by rw [hrec, h2'])
        have hsh : ∃ ext0, streamHandledMessages m ds messages =
            messages ++ ext0 := by
          unfold streamHandledMessages
          by_cases hr : run_function_calls
              (collectFunctionCallsStream m.functions
                (assembleAssistant ds).toolCalls).2 "tool" ≠ []
          · rw [if_pos hr]
            exact ⟨_, by rw [List.append_assoc, List.append_assoc]⟩
          · rw [if_neg hr]
            exact ⟨_, by rw [List.append_assoc]⟩
        obtain ⟨ext0, hext0⟩ := hsh
        constructor
        · rw [hcore]
          exact adapterCore_recordStreamMetrics m
        · refine ⟨ext0 ++ ext1, ?_⟩
          rw [hext1, hext0, List.append_assoc]

/-- C9, amended, witness: the NVDA run completes, leaves every non-metrics
field of `mPrice` unchanged, and only appends to the conversation. -/
theorem c9_adapter_frame_witness :
    (∃ m2 mr, response mPrice scriptPrice [userPrice] =
        RespResult.ok (respMessages (response mPrice scriptPrice [userPrice])) m2 mr ∧
      adapterCore m2 = adapterCore mPrice) ∧
    ∃ ext, respMessages (response mPrice scriptPrice [userPrice]) =
      [userPrice] ++ ext := by
  rcases hres : response mPrice scriptPrice [userPrice] with ⟨msgs2, m2, mr⟩ | e | _
  · have hinv := c9_adapter_frame.1 mPrice scriptPrice [userPrice] msgs2 m2 mr hres
    refine ⟨⟨m2, mr, rfl, hinv.1⟩, ?_⟩
    obtain ⟨ext, hext⟩ := hinv.2
    exact ⟨ext, hext⟩
  · have hok : respIsOk (response mPrice scriptPrice [userPrice]) = true := by decide
    rw [hres] at hok
    exact Bool.noConfusion hok
  · have hok : respIsOk (response mPrice scriptPrice [userPrice]) = true := by decide
    rw [hres] at hok
    exact Bool.noConfusion hok

/-- C9, counterexample.  One completed `response` invocation on a fresh
adapter changes the adapter's `metrics` field: `"response_times"` grows
from `[]` to `[0]`, so not every field other than the conversation is left
unchanged. -/
theorem c9_metrics_mutated_counterexample :
    respTimes (response ({} : MistralChat) [RemoteEvent.round {}] []) ≠
      some (({} : MistralChat).metrics.responseTimes) := by
  decide

end Phi
